import Mathlib

/-!
Shallow embedding of the logging package in `logger.go` (package `log`,
repository nicle-lin/log).

Modelling conventions:
* Go `Level` is `int`; we embed it as `Int` with the RFC5424 constants.
* Timestamps (`time.Now()`) are abstracted to a `Nat` passed by the caller;
  no claim depends on actual clock values.
* The runtime call stack consulted by `runtime.Caller` is modelled as a list
  of frames passed to the logging call; `GetCallStack` walks it exactly as
  the Go loop does.
* A `Target` is modelled by its observable state: whether its `Open` succeeds,
  the ordered trace of `Process` calls it has received (including the `nil`
  sentinel, as `none`), and how many times `Close` has been invoked on it.
* The entry channel is a FIFO list of `Option Entry` (`none` is the `nil`
  shutdown sentinel).  A buffered-channel send is modelled as appending to the
  list; this is the schedule in which the buffer has spare capacity and no
  dispatcher step interleaves with the sender.
* The dispatcher goroutine `process` is modelled by `processStep` (one loop
  iteration) and by the iterations `drain`/`drainAll` used where the code
  waits for it.
* `Formatter` in Go receives the `*Logger` as well; the formatters in the file
  only read the entry, so the model's formatter takes just the entry.
-/

namespace GoLog

abbrev Level := Int

def LevelFatal : Level := 0
def LevelError : Level := 1
def LevelWarn : Level := 2
def LevelInfo : Level := 3
def LevelDebug : Level := 4

inductive Action
  | nothing
  | panic
  | exit
deriving DecidableEq

/-- `strings.Contains haystack needle` on byte/char lists: does `pat` occur as a
contiguous sublist of `l`? Matches Go `strings.Contains` for ASCII strings. -/
def listContains : List Char → List Char → Bool
  | _, [] => true
  | [], _ :: _ => false
  | a :: rest, p :: ps => (List.isPrefixOf (p :: ps) (a :: rest)) || listContains rest (p :: ps)

def strContains (s pat : String) : Bool :=
  listContains s.toList pat.toList

/-- ASCII fragment of Go `unicode`'s separator test as used by `strings.Title`:
digits, letters and `_` are not separators; every other ASCII rune is. -/
def isSeparator (c : Char) : Bool :=
  if c = '_' then false
  else if c.isAlpha || c.isDigit then false
  else true

/-- The rune-by-rune loop of Go `strings.Title`: a rune is title-cased (for
ASCII: upper-cased) exactly when the previous rune is a separator; all other
runes pass through unchanged. -/
def titleMap : Char → List Char → List Char
  | _, [] => []
  | prev, c :: rest => (if isSeparator prev then c.toUpper else c) :: titleMap c rest

/-- Go `strings.Title` (ASCII fragment); the initial "previous rune" is `' '`. -/
def stringsTitle (s : String) : String :=
  String.mk (titleMap ' ' s.toList)

/-- The package-level `Levels` map, as an association list. -/
def Levels : List (String × Level) :=
  [("Debug", LevelDebug), ("Info", LevelInfo), ("Warn", LevelWarn),
   ("Error", LevelError), ("Fatal", LevelFatal)]

/-- A Go map read `m[key]` over an association list. -/
def assocFind : List (String × Level) → String → Option Level
  | [], _ => none
  | (k, v) :: rest, key => if key = k then some v else assocFind rest key

/-- `GetLevel` from `logger.go`: title-case the argument, then look it up in
`Levels`.  A missing key yields Go's zero value `Level(0)` and `false`. -/
def GetLevel (level : String) : Level × Bool :=
  match assocFind Levels (stringsTitle level) with
  | some l => (l, true)
  | none => (0, false)

/-- One frame of the Go runtime stack as seen by `runtime.Caller`. -/
structure Frame where
  file : String
  line : Int
deriving DecidableEq

/-- `fmt.Fprintf(buf, "\n%s:%d", file, line)` for one accepted frame. -/
def renderFrame (f : Frame) : String :=
  "\n" ++ f.file ++ ":" ++ toString f.line

/-- The frames accepted by the loop of `GetCallStack`, starting at the frame
list that remains after skipping: take frames while fewer than `remaining`
have been accepted, keeping a frame when the filter is empty or occurs in its
file path, and stopping when the stack is exhausted. -/
def callStackFrames (filter : String) : Int → List Frame → List Frame
  | _, [] => []
  | remaining, f :: rest =>
    if remaining ≤ 0 then []
    else if filter == "" || strContains f.file filter then
      f :: callStackFrames filter (remaining - 1) rest
    else callStackFrames filter remaining rest

/-- `GetCallStack(skip, frames, filter)` from `logger.go`, over the modelled
runtime stack: skip `skip` innermost frames, then render each accepted frame
as `"\n<file>:<line>"` into the buffer. -/
def GetCallStack (skip frames : Int) (filter : String) (stack : List Frame) : String :=
  String.join ((callStackFrames filter frames (stack.drop skip.toNat)).map renderFrame)

/-- A log entry (`Entry` in `logger.go`). -/
structure Entry where
  level : Level
  category : String
  message : String
  time : Nat
  callStack : String
  formattedMessage : String
deriving DecidableEq

/-- Observable state of one registered `Target`. -/
structure TargetState where
  opensOk : Bool
  processed : List (Option Entry)
  closedCount : Nat
deriving DecidableEq

/-- `coreLogger` state.  `openFlag` is the Go field `open` (a Lean keyword);
`entries` is the buffered channel; `errorOutput` records writes to
`ErrorWriter`, and `hasErrorWriter` models `ErrorWriter != nil`. -/
structure CoreState where
  openFlag : Bool
  entries : List (Option Entry)
  goroutines : Int
  fatalAction : Action
  hasErrorWriter : Bool
  errorOutput : List String
  BufferSize : Int
  CallStackDepth : Int
  CallStackFilter : String
  MaxLevel : Level
  Targets : List TargetState
  SyncMode : Bool
deriving DecidableEq

/-- `Logger` facade: shared core plus category and formatter. -/
structure Logger where
  core : CoreState
  Category : String
  Formatter : Entry → String

/-- `coreLogger.syncProcess`: a `nil` entry is ignored; otherwise every target
in order receives `Process(entry)`. -/
def syncProcess (s : CoreState) (entry : Option Entry) : CoreState :=
  match entry with
  | none => s
  | some e =>
    { s with Targets := s.Targets.map fun t => { t with processed := t.processed ++ [some e] } }

/-- One iteration of the dispatcher loop `coreLogger.process`: receive the head
of the channel, call `Process` on every target (also for the `nil` sentinel,
exactly as the Go loop does), and decrement `goroutines`.  An empty channel
blocks the dispatcher, modelled as no state change. -/
def processStep (s : CoreState) : CoreState :=
  match s.entries with
  | [] => s
  | e :: rest =>
    { s with
      entries := rest
      Targets := s.Targets.map fun t => { t with processed := t.processed ++ [e] }
      goroutines := s.goroutines - 1 }

/-- The busy-wait loop of `newFatalEntry`: while `goroutines > 0` the calling
thread sleeps and the dispatcher runs; each sleep is modelled as one
dispatcher iteration.  If the channel is empty while `goroutines > 0` the Go
loop spins forever; that stuck state is returned unchanged (and recognised by
`fatalAct` below). -/
def drainAux : Nat → CoreState → CoreState
  | 0, s => s
  | n + 1, s =>
    if s.goroutines ≤ 0 then s
    else
      match s.entries with
      | [] => s
      | _ :: _ => drainAux n (processStep s)

def drain (s : CoreState) : CoreState :=
  drainAux s.entries.length s

/-- The dispatcher goroutine run until the channel is empty: the eventual
behaviour of `coreLogger.process` on the current buffer contents.  Each
iteration consumes one queued element, so the queue length bounds the number
of iterations; it is used as structural fuel. -/
def drainAllAux : Nat → CoreState → CoreState
  | 0, s => s
  | n + 1, s =>
    match s.entries with
    | [] => s
    | _ :: _ => drainAllAux n (processStep s)

def drainAll (s : CoreState) : CoreState :=
  drainAllAux s.entries.length s

/-- Result of a logging call, distinguishing normal return from the
terminations `newFatalEntry` can cause.  `hung` marks the state in which the
busy-wait loop of `newFatalEntry` spins forever. -/
inductive Outcome
  | normal
  | panicked (msg : String)
  | exited (code : Int)
  | hung
deriving DecidableEq

/-- `coreLogger.Open` from `logger.go`.  Returns the updated state and the
error (`none` = success, mirroring Go's `nil`).  If already open: success, no
effect.  Validation failures return the error with no state change.  On
success: allocate the channel, call `Open` on every target dropping those
that fail (writing a diagnostic to `ErrorWriter`), start the dispatcher, and
set `open = true`. -/
def Open (s : CoreState) : CoreState × Option String :=
  if s.openFlag then (s, none)
  else if s.hasErrorWriter = false then (s, some "Logger.ErrorWriter must be set.")
  else if s.BufferSize < 0 then (s, some "Logger.BufferSize must be no less than 0.")
  else if s.CallStackDepth < 0 then (s, some "Logger.CallStackDepth must be no less than 0.")
  else
    ({ s with
        entries := []
        errorOutput :=
          s.errorOutput ++ (s.Targets.filter (fun t => !t.opensOk)).map
            (fun _ => "Failed to open target")
        Targets := s.Targets.filter (fun t => t.opensOk)
        openFlag := true },
     none)

/-- `coreLogger.Close` from `logger.go`: no-op when not open; otherwise set
`open = false`, send the `nil` sentinel on the channel, and immediately call
`Close` on every target.  The code does not wait for the dispatcher goroutine,
so this function is also the faithful whole-`Close` schedule in which no
dispatcher step interleaves (admissible whenever the buffered channel has
spare capacity). -/
def Close (s : CoreState) : CoreState :=
  if !s.openFlag then s
  else
    { s with
      openFlag := false
      entries := s.entries ++ [none]
      Targets := s.Targets.map fun t => { t with closedCount := t.closedCount + 1 } }

/-- The entry constructed by `Logger.newEntry` for a non-Fatal level: category,
level, message, timestamp; a call stack only when `CallStackDepth > 0`
(skipping 3 frames, filtered); then the formatted message. -/
def buildEntry (lg : Logger) (level : Level) (message : String) (time : Nat)
    (stack : List Frame) : Entry :=
  let e : Entry :=
    { level := level, category := lg.Category, message := message, time := time,
      callStack := "", formattedMessage := "" }
  let e :=
    if lg.core.CallStackDepth > 0 then
      { e with callStack := GetCallStack 3 lg.core.CallStackDepth lg.core.CallStackFilter stack }
    else e
  { e with formattedMessage := lg.Formatter e }

/-- The entry constructed by `Logger.newFatalEntry`: like `buildEntry`, except
that a call stack is always captured — the depth falls back to 20 when
`CallStackDepth` is 0. -/
def buildFatalEntry (lg : Logger) (level : Level) (message : String) (time : Nat)
    (stack : List Frame) : Entry :=
  let e : Entry :=
    { level := level, category := lg.Category, message := message, time := time,
      callStack := "", formattedMessage := "" }
  let stackDepth := if lg.core.CallStackDepth = 0 then 20 else lg.core.CallStackDepth
  let e := { e with callStack := GetCallStack 3 stackDepth lg.core.CallStackFilter stack }
  { e with formattedMessage := lg.Formatter e }

/-- The submission half of `Logger.newFatalEntry` (lines 338-358 plus the wait
loop): build the fatal entry, process it synchronously against all targets,
then route it through the normal sync-or-async path, then busy-wait for
`goroutines ≤ 0` (the dispatcher draining the channel).  Returns the drained
state together with the constructed entry. -/
def fatalSubmit (lg : Logger) (level : Level) (message : String) (time : Nat)
    (stack : List Frame) : CoreState × Entry :=
  let entry := buildFatalEntry lg level message time stack
  let s := syncProcess lg.core (some entry)
  let s :=
    if s.SyncMode then syncProcess s (some entry)
    else { s with goroutines := s.goroutines + 1, entries := s.entries ++ [some entry] }
  (drain s, entry)

/-- The action half of `Logger.newFatalEntry` (the `switch` reached once
`goroutines ≤ 0`): `ActionPanic` panics with "Fatal error."; `ActionExit`
synchronously processes one Warn-level "Forced to exit." entry and exits with
status -1; `ActionNothing` just returns.  If the wait loop never observes
`goroutines ≤ 0`, the call hangs. -/
def fatalAct (lg : Logger) (s : CoreState) (time : Nat) : CoreState × Outcome :=
  if s.goroutines ≤ 0 then
    match s.fatalAction with
    | Action.panic => (s, Outcome.panicked "Fatal error.")
    | Action.exit =>
      let e : Entry :=
        { level := LevelWarn, category := lg.Category, message := "Forced to exit.",
          time := time, callStack := "", formattedMessage := "" }
      let e := { e with formattedMessage := lg.Formatter e }
      (syncProcess s (some e), Outcome.exited (-1))
    | Action.nothing => (s, Outcome.normal)
  else (s, Outcome.hung)

/-- `Logger.newFatalEntry` from `logger.go`: submit-and-drain, then act. -/
def newFatalEntry (lg : Logger) (level : Level) (message : String) (time : Nat)
    (stack : List Frame) : CoreState × Outcome :=
  fatalAct lg (fatalSubmit lg level message time stack).1 time

/-- `Logger.newEntry` from `logger.go`: Fatal levels go to `newFatalEntry`;
other levels build the entry and either process it synchronously (`SyncMode`)
or increment `goroutines` and push it onto the channel. -/
def newEntry (lg : Logger) (level : Level) (message : String) (time : Nat)
    (stack : List Frame) : CoreState × Outcome :=
  if level = LevelFatal then newFatalEntry lg level message time stack
  else
    let entry := buildEntry lg level message time stack
    if lg.core.SyncMode then (syncProcess lg.core (some entry), Outcome.normal)
    else
      ({ lg.core with
          goroutines := lg.core.goroutines + 1
          entries := lg.core.entries ++ [some entry] },
       Outcome.normal)

/-- `Logger.Log` from `logger.go`: drop silently when the level is above
`MaxLevel` or the engine is not open; otherwise hand the message to
`newEntry`.  (`fmt.Sprint` of the variadic arguments is abstracted as the
already-built `message`; `Logf` differs only in building the message with
`fmt.Sprintf` and has the identical gate.) -/
def Log (lg : Logger) (level : Level) (message : String) (time : Nat)
    (stack : List Frame) : CoreState × Outcome :=
  if level > lg.core.MaxLevel || !lg.core.openFlag then (lg.core, Outcome.normal)
  else newEntry lg level message time stack

/-- `Logger.SetTarget` from `logger.go`: close the engine; with at least one
argument, replace the target list and reopen; with none, just empty the
target list (the engine stays closed). -/
def SetTarget (lg : Logger) (targets : List TargetState) : Logger :=
  let core := Close lg.core
  if targets.length > 0 then
    { lg with core := (Open { core with Targets := targets }).1 }
  else
    { lg with core := { core with Targets := [] } }

/-- `Logger.AddTarget` from `logger.go`: close the engine, append the new
targets, reopen. -/
def AddTarget (lg : Logger) (targets : List TargetState) : Logger :=
  let core := Close lg.core
  { lg with core := (Open { core with Targets := core.Targets ++ targets }).1 }

/-- `LoggerWriter.Write` from `logger.go`.  The Go code indexes `p[n-1]`
unconditionally, so an empty slice panics (modelled as `none`); otherwise it
strips one trailing newline, logs the remainder as one entry at the writer's
level via `newEntry`, and returns `n = len(p)` with a `nil` error (modelled as
`some (n, _)`). -/
def LoggerWriterWrite (lg : Logger) (level : Level) (p : List Char) (time : Nat)
    (stack : List Frame) : Option (Nat × (CoreState × Outcome)) :=
  let n := p.length
  match p.getLast? with
  | none => none
  | some last =>
    let s := if last = '\n' then p.take (n - 1) else p
    some (n, newEntry lg level (String.mk s) time stack)

/-- Spec-side restatement for the refinement part of the `LoggerWriter.Write`
claim: "with exactly one trailing newline removed if present". -/
def specStripTrailingNewline (p : List Char) : List Char :=
  if p.getLast? = some '\n' then p.dropLast else p

/-- "Some target trace contains an entry satisfying `Q`" — used to show a
message stays delivered across later engine steps. -/
def traceHas (Q : Entry → Prop) (s : CoreState) : Prop :=
  ∀ tg ∈ s.Targets, ∃ e, some e ∈ tg.processed ∧ Q e

/-! Concrete sample states used by the witnesses. -/

def sampleTarget : TargetState :=
  { opensOk := true, processed := [], closedCount := 0 }

def sampleEntry : Entry :=
  { level := LevelInfo, category := "app", message := "m1", time := 0,
    callStack := "", formattedMessage := "" }

/-- An open engine with one pending queued entry and one active target. -/
def sampleCore : CoreState :=
  { openFlag := true, entries := [some sampleEntry], goroutines := 1,
    fatalAction := Action.nothing, hasErrorWriter := true, errorOutput := [],
    BufferSize := 1024, CallStackDepth := 0, CallStackFilter := "",
    MaxLevel := LevelDebug, Targets := [sampleTarget], SyncMode := false }

/-- An open, idle engine (empty queue) with one active target. -/
def idleCore : CoreState :=
  { sampleCore with entries := [], goroutines := 0 }

def sampleFormatter : Entry → String := fun e => e.message

def sampleLogger : Logger :=
  { core := sampleCore, Category := "app", Formatter := sampleFormatter }

def idleLogger : Logger :=
  { core := idleCore, Category := "app", Formatter := sampleFormatter }

/-- A modelled runtime stack with four frames (three wrapper frames plus one
user frame). -/
def sampleStack : List Frame :=
  [{ file := "log/logger.go", line := 316 }, { file := "log/logger.go", line := 307 },
   { file := "app/wrapper.go", line := 12 }, { file := "app/main.go", line := 40 }]

/-! Auxiliary lemmas about the dispatcher loop. -/

theorem drainAux_drained :
    ∀ (n : Nat) (s : CoreState), s.entries.length = n → s.goroutines = (n : Int) →
      drainAux n s =
        { s with entries := [], goroutines := 0,
                 Targets := s.Targets.map fun t =>
                   { t with processed := t.processed ++ s.entries } } := by
  intro n
  induction n with
  | zero =>
    intro s hlen hg
    obtain ⟨o, es, g, fa, hw, eo, bs, cd, cf, ml, tg, sm⟩ := s
    have he : es = [] := List.length_eq_zero.mp hlen
    subst he
    simp_all [drainAux]
  | succ n ih =>
    intro s hlen hg
    match he : s.entries with
    | [] => simp [he] at hlen
    | e :: rest =>
      have hr : rest.length = n := by
        have := hlen; rw [he] at this; simpa using this
      have hpos : ¬ s.goroutines ≤ 0 := by omega
      have h2 : (processStep s).entries.length = n := by
        simp [processStep, he, hr]
      have h3 : (processStep s).goroutines = (n : Int) := by
        simp [processStep, he]; omega
      have hrec := ih (processStep s) h2 h3
      rw [drainAux]
      simp only [he, hpos, if_false]
      rw [hrec]
      simp [processStep, he, List.map_map, Function.comp_def, List.append_assoc]

theorem drain_drained (s : CoreState) (hg : s.goroutines = (s.entries.length : Int)) :
    drain s =
      { s with entries := [], goroutines := 0,
               Targets := s.Targets.map fun t =>
                 { t with processed := t.processed ++ s.entries } } :=
  drainAux_drained s.entries.length s rfl hg

theorem drainAllAux_drained :
    ∀ (n : Nat) (s : CoreState), s.entries.length = n →
      drainAllAux n s =
        { s with entries := [], goroutines := s.goroutines - (n : Int),
                 Targets := s.Targets.map fun t =>
                   { t with processed := t.processed ++ s.entries } } := by
  intro n
  induction n with
  | zero =>
    intro s hlen
    obtain ⟨o, es, g, fa, hw, eo, bs, cd, cf, ml, tg, sm⟩ := s
    have he : es = [] := List.length_eq_zero.mp hlen
    subst he
    simp_all [drainAllAux]
  | succ n ih =>
    intro s hlen
    match he : s.entries with
    | [] => simp [he] at hlen
    | e :: rest =>
      have hr : rest.length = n := by
        have := hlen; rw [he] at this; simpa using this
      have h2 : (processStep s).entries.length = n := by
        simp [processStep, he, hr]
      have hrec := ih (processStep s) h2
      rw [drainAllAux]
      simp only [he]
      rw [hrec]
      simp [processStep, he, List.map_map, Function.comp_def, List.append_assoc]
      omega

theorem drainAll_drained (s : CoreState) :
    drainAll s =
      { s with entries := [], goroutines := s.goroutines - (s.entries.length : Int),
               Targets := s.Targets.map fun t =>
                 { t with processed := t.processed ++ s.entries } } :=
  drainAllAux_drained s.entries.length s rfl

/-! Persistence of delivered entries. -/

theorem traceHas_syncProcess {Q : Entry → Prop} {s : CoreState} (oe : Option Entry)
    (h : traceHas Q s) : traceHas Q (syncProcess s oe) := by
  cases oe with
  | none => exact h
  | some e =>
    intro tg htg
    simp only [syncProcess, List.mem_map] at htg
    obtain ⟨tg0, htg0, rfl⟩ := htg
    obtain ⟨e0, hmem, hQ⟩ := h tg0 htg0
    exact ⟨e0, by simp [List.mem_append, hmem], hQ⟩

theorem traceHas_syncProcess_self {Q : Entry → Prop} {e : Entry} (s : CoreState)
    (hQ : Q e) : traceHas Q (syncProcess s (some e)) := by
  intro tg htg
  simp only [syncProcess, List.mem_map] at htg
  obtain ⟨tg0, _, rfl⟩ := htg
  exact ⟨e, by simp, hQ⟩

theorem traceHas_processStep {Q : Entry → Prop} {s : CoreState}
    (h : traceHas Q s) : traceHas Q (processStep s) := by
  unfold processStep
  match hs : s.entries with
  | [] => exact h
  | e :: rest =>
    intro tg htg
    simp only [List.mem_map] at htg
    obtain ⟨tg0, htg0, rfl⟩ := htg
    obtain ⟨e0, hmem, hQ⟩ := h tg0 htg0
    exact ⟨e0, by simp [List.mem_append, hmem], hQ⟩

theorem traceHas_drainAux {Q : Entry → Prop} :
    ∀ (n : Nat) (s : CoreState), traceHas Q s → traceHas Q (drainAux n s) := by
  intro n
  induction n with
  | zero => intro s h; exact h
  | succ n ih =>
    intro s h
    rw [drainAux]
    split
    · exact h
    · split
      · exact h
      · exact ih _ (traceHas_processStep h)

theorem traceHas_drain {Q : Entry → Prop} {s : CoreState} (h : traceHas Q s) :
    traceHas Q (drain s) :=
  traceHas_drainAux s.entries.length s h

theorem traceHas_drainAllAux {Q : Entry → Prop} :
    ∀ (n : Nat) (s : CoreState), traceHas Q s → traceHas Q (drainAllAux n s) := by
  intro n
  induction n with
  | zero => intro s h; exact h
  | succ n ih =>
    intro s h
    rw [drainAllAux]
    split
    · exact h
    · exact ih _ (traceHas_processStep h)

theorem traceHas_drainAll {Q : Entry → Prop} {s : CoreState} (h : traceHas Q s) :
    traceHas Q (drainAll s) :=
  traceHas_drainAllAux s.entries.length s h

theorem traceHas_fatalAct {Q : Entry → Prop} (lg : Logger) {s : CoreState} (time : Nat)
    (h : traceHas Q s) : traceHas Q (fatalAct lg s time).1 := by
  unfold fatalAct
  split
  · split
    · exact h
    · exact traceHas_syncProcess _ h
    · exact h
  · exact h

/-! The fields of the entries built by the two entry constructors. -/

theorem buildEntry_fields (lg : Logger) (level : Level) (message : String) (time : Nat)
    (stack : List Frame) :
    (buildEntry lg level message time stack).level = level
    ∧ (buildEntry lg level message time stack).category = lg.Category
    ∧ (buildEntry lg level message time stack).message = message := by
  unfold buildEntry
  split <;> simp

theorem buildFatalEntry_fields (lg : Logger) (level : Level) (message : String) (time : Nat)
    (stack : List Frame) :
    (buildFatalEntry lg level message time stack).level = level
    ∧ (buildFatalEntry lg level message time stack).category = lg.Category
    ∧ (buildFatalEntry lg level message time stack).message = message := by
  unfold buildFatalEntry
  simp

/-! Lookup lemmas for the `Levels` map. -/

theorem assocFind_none_ne :
    ∀ (l : List (String × Level)) (key : String), assocFind l key = none →
      ∀ p ∈ l, key ≠ p.1 := by
  intro l
  induction l with
  | nil => intro key _ p hp; simp at hp
  | cons q rest ih =>
    intro key hl p hp
    rw [assocFind] at hl
    by_cases hk : key = q.1
    · simp [hk] at hl
    · rcases List.mem_cons.mp hp with h | h
      · subst h; exact hk
      · exact ih key (by simpa [hk] using hl) p h

theorem assocFind_some_mem :
    ∀ (l : List (String × Level)) (key : String) (v : Level), assocFind l key = some v →
      (key, v) ∈ l := by
  intro l
  induction l with
  | nil => intro key v h; simp [assocFind] at h
  | cons q rest ih =>
    intro key v hl
    rw [assocFind] at hl
    by_cases hk : key = q.1
    · simp [hk] at hl
      exact List.mem_cons.mpr (Or.inl (by rw [hk, ← hl]))
    · exact List.mem_cons.mpr (Or.inr (ih key v (by simpa [hk] using hl)))

/-! Bounds on the call-stack capture loop. -/

theorem callStackFrames_length_le (filter : String) :
    ∀ (l : List Frame) (k : Int), (callStackFrames filter k l).length ≤ k.toNat := by
  intro l
  induction l with
  | nil => intro k; simp [callStackFrames]
  | cons f rest ih =>
    intro k
    rw [callStackFrames]
    split
    · simp
    · split
      · have := ih (k - 1)
        simp only [List.length_cons]
        omega
      · exact ih k

theorem callStackFrames_filtered (filter : String) :
    ∀ (l : List Frame) (k : Int), ∀ f ∈ callStackFrames filter k l,
      (filter == "" || strContains f.file filter) = true := by
  intro l
  induction l with
  | nil => intro k f hf; simp [callStackFrames] at hf
  | cons g rest ih =>
    intro k f hf
    rw [callStackFrames] at hf
    split at hf
    · simp at hf
    · split at hf
      · rcases List.mem_cons.mp hf with h | h
        · subst h; assumption
        · exact ih (k - 1) f h
      · exact ih k f hf

/-! Lifecycle helper lemmas shared by several claims. -/

theorem Close_config (s : CoreState) :
    (Close s).openFlag = false ∧ (Close s).hasErrorWriter = s.hasErrorWriter
    ∧ (Close s).BufferSize = s.BufferSize ∧ (Close s).CallStackDepth = s.CallStackDepth := by
  unfold Close
  by_cases h : s.openFlag <;> simp [h]

theorem Open_success (s : CoreState) (h1 : s.openFlag = false) (h2 : s.hasErrorWriter = true)
    (h3 : 0 ≤ s.BufferSize) (h4 : 0 ≤ s.CallStackDepth) :
    (Open s).1.openFlag = true
    ∧ (Open s).1.Targets = s.Targets.filter (fun t => t.opensOk)
    ∧ (Open s).2 = none
    ∧ (Open s).1.entries = [] := by
  unfold Open
  simp [h1, h2, not_lt.mpr h3, not_lt.mpr h4]

theorem syncProcess_some (s : CoreState) (e : Entry) :
    syncProcess s (some e) =
      { s with Targets := s.Targets.map fun t =>
          { t with processed := t.processed ++ [some e] } } :=
  rfl

/-- In synchronous mode, `fatalSubmit` processes the fatal entry twice against
every target (two direct `syncProcess` calls) and then the busy-wait drains
whatever was queued. -/
theorem fatalSubmit_sync (lg : Logger) (level : Level) (message : String) (time : Nat)
    (stack : List Frame) (hg : lg.core.goroutines = (lg.core.entries.length : Int))
    (hs : lg.core.SyncMode = true) :
    (fatalSubmit lg level message time stack).1 =
      { lg.core with
          entries := []
          goroutines := 0
          Targets := lg.core.Targets.map fun t =>
            { t with processed :=
                t.processed
                ++ [some (buildFatalEntry lg level message time stack),
                    some (buildFatalEntry lg level message time stack)]
                ++ lg.core.entries } } := by
  unfold fatalSubmit
  simp only [syncProcess_some, hs, if_true]
  rw [drain_drained]
  · simp [List.map_map, Function.comp_def, List.append_assoc]
  · simpa using hg

/-- In asynchronous mode, `fatalSubmit` processes the fatal entry once
directly, then pushes it onto the queue behind the pending entries; the
busy-wait lets the dispatcher deliver the pending entries and the queued
copy of the fatal entry. -/
theorem fatalSubmit_async (lg : Logger) (level : Level) (message : String) (time : Nat)
    (stack : List Frame) (hg : lg.core.goroutines = (lg.core.entries.length : Int))
    (hs : lg.core.SyncMode = false) :
    (fatalSubmit lg level message time stack).1 =
      { lg.core with
          entries := []
          goroutines := 0
          Targets := lg.core.Targets.map fun t =>
            { t with processed :=
                t.processed
                ++ [some (buildFatalEntry lg level message time stack)]
                ++ lg.core.entries
                ++ [some (buildFatalEntry lg level message time stack)] } } := by
  unfold fatalSubmit
  simp only [syncProcess_some, hs, if_false, Bool.false_eq_true]
  rw [drain_drained]
  · simp [List.map_map, Function.comp_def, List.append_assoc]
  · simp
    omega

/-- A Fatal-level `Log` call on an open engine (with `MaxLevel` admitting
Fatal) takes the submit-drain-act path. -/
theorem Log_fatal (lg : Logger) (message : String) (time : Nat) (stack : List Frame)
    (hopen : lg.core.openFlag = true) (hmax : 0 ≤ lg.core.MaxLevel) :
    Log lg LevelFatal message time stack =
      fatalAct lg (fatalSubmit lg LevelFatal message time stack).1 time := by
  unfold Log newEntry newFatalEntry
  rw [if_neg (by simp [LevelFatal, hopen, not_lt.mpr hmax])]
  rw [if_pos rfl]

/-! ## The claims -/

/-- C9, counterexample: `GetLevel` is not fully case-insensitive.  "DEBUG" is a
casing of the valid level name "Debug", yet `GetLevel "DEBUG"` yields the
zero level with `false` instead of the Debug level: `strings.Title` only
upper-cases the first letter and leaves the rest unchanged, so "DEBUG" never
matches the key "Debug". -/
theorem c9_counterexample :
    GetLevel "DEBUG" = (LevelFatal, false) ∧ GetLevel "DEBUG" ≠ (LevelDebug, true) := by
  decide

/-- C9, amended: `GetLevel` title-cases its argument (upper-casing only the
first letter of each word), so "debug" and "Debug" both resolve to the Debug
level with success — likewise for the other level names in lower case — while
a string whose title-cased form is not a key of `Levels` (such as "DEBUG" or
any unrecognized name) yields a not-found indication; whenever `GetLevel`
reports found, the resolved pair really is an entry of `Levels`. -/
theorem c9_getlevel_casing :
    GetLevel "debug" = (LevelDebug, true) ∧ GetLevel "Debug" = (LevelDebug, true)
    ∧ GetLevel "info" = (LevelInfo, true) ∧ GetLevel "warn" = (LevelWarn, true)
    ∧ GetLevel "error" = (LevelError, true) ∧ GetLevel "fatal" = (LevelFatal, true)
    ∧ (∀ s : String, (GetLevel s).2 = false → ∀ p ∈ Levels, stringsTitle s ≠ p.1)
    ∧ (∀ s : String, (GetLevel s).2 = true → (stringsTitle s, (GetLevel s).1) ∈ Levels) := by
  refine ⟨by decide, by decide, by decide, by decide, by decide, by decide, ?_, ?_⟩
  · intro s hfalse p hp
    unfold GetLevel at hfalse
    cases h : assocFind Levels (stringsTitle s) with
    | none => exact assocFind_none_ne Levels (stringsTitle s) h p hp
    | some v => rw [h] at hfalse; simp at hfalse
  · intro s htrue
    unfold GetLevel at htrue ⊢
    cases h : assocFind Levels (stringsTitle s) with
    | none => rw [h] at htrue; simp at htrue
    | some v =>
      exact assocFind_some_mem Levels (stringsTitle s) v h

/-- Witness for the amended C9, applying it to the unrecognized name "nope". -/
theorem c9_witness :
    (GetLevel "nope").2 = false ∧ ∀ p ∈ Levels, stringsTitle "nope" ≠ p.1 :=
  ⟨by decide, c9_getlevel_casing.2.2.2.2.2.2.1 "nope" (by decide)⟩

/-- C6 (confirmed): `Open` on an already-open engine returns success with no
effect; on a closed engine it returns an error and performs no state change
when the error writer is nil, the buffer size is negative, or the call-stack
depth is negative (checked in that order); otherwise it succeeds, allocates
the queue, and sets `open` to true. -/
theorem c6_open_validation (s : CoreState) :
    (s.openFlag = true → Open s = (s, none))
    ∧ (s.openFlag = false → s.hasErrorWriter = false →
        Open s = (s, some "Logger.ErrorWriter must be set."))
    ∧ (s.openFlag = false → s.hasErrorWriter = true → s.BufferSize < 0 →
        Open s = (s, some "Logger.BufferSize must be no less than 0."))
    ∧ (s.openFlag = false → s.hasErrorWriter = true → 0 ≤ s.BufferSize →
        s.CallStackDepth < 0 →
        Open s = (s, some "Logger.CallStackDepth must be no less than 0."))
    ∧ (s.openFlag = false → s.hasErrorWriter = true → 0 ≤ s.BufferSize →
        0 ≤ s.CallStackDepth →
        (Open s).2 = none ∧ (Open s).1.openFlag = true ∧ (Open s).1.entries = []) := by
  refine ⟨?_, ?_, ?_, ?_, ?_⟩
  · intro h; unfold Open; simp [h]
  · intro h1 h2; unfold Open; simp [h1, h2]
  · intro h1 h2 h3; unfold Open; simp [h1, h2, h3]
  · intro h1 h2 h3 h4; unfold Open; simp [h1, h2, not_lt.mpr h3, h4]
  · intro h1 h2 h3 h4
    have h := Open_success s h1 h2 h3 h4
    exact ⟨h.2.2.1, h.1, h.2.2.2⟩

/-- Witness for C6: an engine that is closed and has no error writer is left
unchanged with the configuration error. -/
theorem c6_witness :
    ({ sampleCore with openFlag := false, hasErrorWriter := false } : CoreState).openFlag = false
    ∧ ({ sampleCore with openFlag := false, hasErrorWriter := false } : CoreState).hasErrorWriter
        = false
    ∧ Open { sampleCore with openFlag := false, hasErrorWriter := false }
        = ({ sampleCore with openFlag := false, hasErrorWriter := false },
           some "Logger.ErrorWriter must be set.") :=
  ⟨rfl, rfl,
    (c6_open_validation { sampleCore with openFlag := false, hasErrorWriter := false }).2.1
      rfl rfl⟩

/-- C7 (confirmed): `Close` is idempotent — the second of two consecutive
`Close` calls is a no-op (the `open` guard fails), each target's `Close` is
invoked exactly once for the open-to-closed transition, and the model is a
total function, so no panic occurs on either call. -/
theorem c7_close_idempotent (s : CoreState) :
    Close (Close s) = Close s
    ∧ (s.openFlag = true →
        (Close s).Targets = s.Targets.map fun t =>
          { t with closedCount := t.closedCount + 1 }) := by
  constructor
  · by_cases h : s.openFlag <;> simp [Close, h]
  · intro h; simp [Close, h]

/-- Witness for C7 at the sample open engine. -/
theorem c7_witness :
    Close (Close sampleCore) = Close sampleCore
    ∧ sampleCore.openFlag = true
    ∧ (Close sampleCore).Targets = sampleCore.Targets.map (fun t =>
        { t with closedCount := t.closedCount + 1 }) :=
  ⟨(c7_close_idempotent sampleCore).1, rfl, (c7_close_idempotent sampleCore).2 rfl⟩

/-- C2 (code bug): evaluation of `Close` at the failing input.  On an open
engine whose queue still holds `sampleEntry`, `Close` flips `open` to false
and invokes the target's `Close` (closedCount becomes 1) while the entry has
not been processed (the trace is still empty and the entry is still queued
behind the sentinel): the code never waits for the dispatcher goroutine to
consume the sentinel, contradicting both the claim and the function's own
doc comment ("Existing messages will be processed before the targets are
closed."). -/
theorem c2_close_races_delivery :
    sampleCore.openFlag = true
    ∧ (Close sampleCore).openFlag = false
    ∧ (Close sampleCore).Targets = [{ opensOk := true, processed := [], closedCount := 1 }]
    ∧ (Close sampleCore).entries = [some sampleEntry, none] := by
  decide

/-- C8, counterexample: `SetTarget` called with zero targets closes the engine
and leaves it closed — the engine is not "open again when the call returns". -/
theorem c8_counterexample :
    sampleCore.openFlag = true ∧ (SetTarget sampleLogger []).core.openFlag = false :=
  ⟨rfl, rfl⟩

/-- C8, amended: `SetTarget` and `AddTarget` both close the engine first
(closing the current targets) and only then mutate the target list;
`AddTarget` always reopens (the reopened engine keeps the closed old targets
plus the new ones, dropping any whose `Open` fails), while `SetTarget`
reopens only when given at least one target — with zero targets the target
list becomes empty and the engine stays closed.  (Stated for a valid
configuration, which is what reopening requires.) -/
theorem c8_target_mutation (lg : Logger) (ts : List TargetState)
    (hw : lg.core.hasErrorWriter = true) (hb : 0 ≤ lg.core.BufferSize)
    (hc : 0 ≤ lg.core.CallStackDepth) :
    ((AddTarget lg ts).core.openFlag = true
      ∧ (AddTarget lg ts).core.Targets =
          ((Close lg.core).Targets ++ ts).filter (fun t => t.opensOk))
    ∧ (ts ≠ [] →
        (SetTarget lg ts).core.openFlag = true
        ∧ (SetTarget lg ts).core.Targets = ts.filter (fun t => t.opensOk))
    ∧ (SetTarget lg []).core.openFlag = false
    ∧ (SetTarget lg []).core.Targets = [] := by
  obtain ⟨hcf, hcw, hcb, hcd⟩ := Close_config lg.core
  refine ⟨?_, ?_, ?_, ?_⟩
  · unfold AddTarget
    have h := Open_success { Close lg.core with Targets := (Close lg.core).Targets ++ ts }
      (by exact hcf) (by exact hcw.trans hw)
      (by exact le_of_le_of_eq hb hcb.symm) (by exact le_of_le_of_eq hc hcd.symm)
    exact ⟨h.1, h.2.1⟩
  · intro hts
    have hlen : 0 < ts.length := List.length_pos.mpr hts
    unfold SetTarget
    simp only [gt_iff_lt, hlen, if_pos]
    have h := Open_success { Close lg.core with Targets := ts }
      (by exact hcf) (by exact hcw.trans hw)
      (by exact le_of_le_of_eq hb hcb.symm) (by exact le_of_le_of_eq hc hcd.symm)
    exact ⟨h.1, h.2.1⟩
  · unfold SetTarget
    simpa using hcf
  · unfold SetTarget
    simp

/-- Witness for the amended C8 at the sample open engine and one fresh target. -/
theorem c8_witness :
    sampleLogger.core.hasErrorWriter = true
    ∧ (0 : Int) ≤ sampleLogger.core.BufferSize
    ∧ (0 : Int) ≤ sampleLogger.core.CallStackDepth
    ∧ (AddTarget sampleLogger [sampleTarget]).core.openFlag = true
    ∧ (SetTarget sampleLogger []).core.openFlag = false :=
  ⟨rfl, by decide, by decide,
    (c8_target_mutation sampleLogger [sampleTarget] rfl (by decide) (by decide)).1.1,
    (c8_target_mutation sampleLogger [sampleTarget] rfl (by decide) (by decide)).2.2.1⟩

/-- C10 (confirmed): for a non-empty byte slice `p`, `LoggerWriter.Write` is
safe, returns `n = len(p)` with a nil error, and logs one entry whose message
is `p` with exactly one trailing newline removed if present
(`specStripTrailingNewline` restates the claim's words); the empty slice is
outside the guarantee — the code's `p[len(p)-1]` is then out of bounds,
modelled as `none`. -/
theorem c10_writer_write (lg : Logger) (level : Level) (p : List Char) (time : Nat)
    (stack : List Frame) :
    (p ≠ [] →
      LoggerWriterWrite lg level p time stack =
        some (p.length, newEntry lg level (String.mk (specStripTrailingNewline p)) time stack))
    ∧ LoggerWriterWrite lg level [] time stack = none := by
  constructor
  · intro hp
    unfold LoggerWriterWrite specStripTrailingNewline
    match h : p.getLast? with
    | none => exact absurd (List.getLast?_eq_none_iff.mp h) hp
    | some last =>
      by_cases hl : last = '\n'
      · subst hl
        simp [h, List.dropLast_eq_take]
      · simp [h, hl]
  · rfl

/-- Witness for C10: writing "hi\n" yields `n = 3` and logs "hi". -/
theorem c10_witness :
    (['h', 'i', '\n'] : List Char) ≠ []
    ∧ LoggerWriterWrite idleLogger LevelInfo ['h', 'i', '\n'] 0 [] =
        some (3, newEntry idleLogger LevelInfo
          (String.mk (specStripTrailingNewline ['h', 'i', '\n'])) 0 [])
    ∧ String.mk (specStripTrailingNewline ['h', 'i', '\n']) = "hi" :=
  ⟨by decide,
    (c10_writer_write idleLogger LevelInfo ['h', 'i', '\n'] 0 []).1 (by decide),
    by decide⟩

/-- C5, counterexample: with `CallStackDepth = 0` a Fatal-level call still
attaches a call stack.  `newFatalEntry` substitutes a default depth of 20
when the configured depth is 0, so the entry processed by the target carries
a non-empty stack ("\napp/main.go:40" for the sample stack). -/
theorem c5_counterexample :
    idleLogger.core.CallStackDepth = 0
    ∧ (buildFatalEntry idleLogger LevelFatal "boom" 0 sampleStack).callStack = "\napp/main.go:40"
    ∧ ((Log idleLogger LevelFatal "boom" 0 sampleStack).1.Targets.map
          (fun tg => tg.processed.map (Option.map Entry.callStack)))
        = [[some "\napp/main.go:40", some "\napp/main.go:40"]]
    ∧ ("\napp/main.go:40" : String) ≠ "" := by
  decide

/-- C5, amended: when `CallStackDepth = 0`, non-Fatal entries carry no call
stack, but Fatal entries capture one with a default depth of 20; when
`CallStackDepth > 0`, both constructors capture `GetCallStack` with the
configured depth, which skips 3 inner frames, accepts at most
`CallStackDepth` frames, and accepts only frames passing `CallStackFilter`. -/
theorem c5_callstack_capture (lg : Logger) (level : Level) (message : String)
    (time : Nat) (stack : List Frame) :
    (lg.core.CallStackDepth = 0 →
        (buildEntry lg level message time stack).callStack = ""
        ∧ (buildFatalEntry lg level message time stack).callStack =
            GetCallStack 3 20 lg.core.CallStackFilter stack)
    ∧ (0 < lg.core.CallStackDepth →
        (buildEntry lg level message time stack).callStack =
            GetCallStack 3 lg.core.CallStackDepth lg.core.CallStackFilter stack
        ∧ (buildFatalEntry lg level message time stack).callStack =
            GetCallStack 3 lg.core.CallStackDepth lg.core.CallStackFilter stack)
    ∧ (callStackFrames lg.core.CallStackFilter lg.core.CallStackDepth (stack.drop 3)).length
        ≤ lg.core.CallStackDepth.toNat
    ∧ (∀ f ∈ callStackFrames lg.core.CallStackFilter lg.core.CallStackDepth (stack.drop 3),
        (lg.core.CallStackFilter == "" || strContains f.file lg.core.CallStackFilter) = true) := by
  refine ⟨?_, ?_, ?_, ?_⟩
  · intro h0
    constructor
    · unfold buildEntry; simp [h0]
    · unfold buildFatalEntry; simp [h0]
  · intro hpos
    constructor
    · unfold buildEntry; simp [hpos]
    · unfold buildFatalEntry; simp [show ¬ lg.core.CallStackDepth = 0 by omega]
  · exact callStackFrames_length_le _ _ _
  · exact callStackFrames_filtered _ _ _

/-- Witness for the amended C5 at the sample engine with `CallStackDepth = 0`. -/
theorem c5_witness :
    idleLogger.core.CallStackDepth = 0
    ∧ (buildEntry idleLogger LevelInfo "x" 0 sampleStack).callStack = ""
    ∧ (buildFatalEntry idleLogger LevelFatal "x" 0 sampleStack).callStack =
        GetCallStack 3 20 idleLogger.core.CallStackFilter sampleStack :=
  ⟨rfl,
    ((c5_callstack_capture idleLogger LevelInfo "x" 0 sampleStack).1 rfl).1,
    ((c5_callstack_capture idleLogger LevelFatal "x" 0 sampleStack).1 rfl).2⟩

/-- C3 (confirmed): a `Log` call at level `L` with configured maximum `F` is
delivered to the targets iff `L ≤ F` numerically and the engine is open —
once the dispatcher has consumed the queue (`drainAll`), every active target
has processed an entry with that level, the facade's category, and the given
message.  Otherwise the call returns the state unchanged: a silent no-op
with no observable effect and no error. -/
theorem c3_level_gate (lg : Logger) (level : Level) (message : String) (time : Nat)
    (stack : List Frame) :
    (¬ (level ≤ lg.core.MaxLevel ∧ lg.core.openFlag = true) →
        Log lg level message time stack = (lg.core, Outcome.normal))
    ∧ ((level ≤ lg.core.MaxLevel ∧ lg.core.openFlag = true) →
        traceHas (fun e => e.level = level ∧ e.category = lg.Category ∧ e.message = message)
          (drainAll (Log lg level message time stack).1)) := by
  constructor
  · intro hgate
    unfold Log
    rcases not_and_or.mp hgate with h | h
    · simp [not_le.mp h]
    · simp [Bool.eq_false_iff.mpr h]
  · rintro ⟨hle, hopen⟩
    unfold Log
    rw [if_neg (by simp [hopen, not_lt.mpr hle])]
    unfold newEntry
    by_cases hf : level = LevelFatal
    · rw [if_pos hf]
      unfold newFatalEntry
      apply traceHas_drainAll
      apply traceHas_fatalAct
      unfold fatalSubmit
      apply traceHas_drain
      have hQ : (buildFatalEntry lg level message time stack).level = level
          ∧ (buildFatalEntry lg level message time stack).category = lg.Category
          ∧ (buildFatalEntry lg level message time stack).message = message :=
        buildFatalEntry_fields lg level message time stack
      have hbase := traceHas_syncProcess_self (Q := fun e =>
          e.level = level ∧ e.category = lg.Category ∧ e.message = message)
        lg.core (e := buildFatalEntry lg level message time stack) hQ
      split
      · exact traceHas_syncProcess _ hbase
      · exact hbase
    · rw [if_neg hf]
      have hQ := buildEntry_fields lg level message time stack
      by_cases hs : lg.core.SyncMode
      · rw [if_pos hs]
        exact traceHas_drainAll (traceHas_syncProcess_self lg.core ⟨hQ.1, hQ.2.1, hQ.2.2⟩)
      · rw [if_neg hs]
        rw [drainAll_drained]
        intro tg htg
        simp only [List.mem_map] at htg
        obtain ⟨tg0, htg0, rfl⟩ := htg
        refine ⟨buildEntry lg level message time stack, ?_, hQ.1, hQ.2.1, hQ.2.2⟩
        simp [List.mem_append]

/-- Witness for C3: an Info entry on the open sample engine is delivered. -/
theorem c3_witness :
    (LevelInfo ≤ idleLogger.core.MaxLevel ∧ idleLogger.core.openFlag = true)
    ∧ traceHas (fun e =>
        e.level = LevelInfo ∧ e.category = idleLogger.Category ∧ e.message = "hello")
        (drainAll (Log idleLogger LevelInfo "hello" 0 []).1) :=
  ⟨⟨by decide, rfl⟩,
    (c3_level_gate idleLogger LevelInfo "hello" 0 []).2 ⟨by decide, rfl⟩⟩

/-- C4 (confirmed): a Fatal entry is first processed synchronously against all
targets, and additionally routed through the normal sync-or-async path, so
each active target processes it twice in total: in sync mode both copies are
processed synchronously on the calling thread (before any queued entries);
in async mode the second copy goes through the dispatcher's queue, arriving
after the previously queued entries.  Stated under the pending-count
invariant `goroutines = queue length` of the idle-producer schedule. -/
theorem c4_fatal_double_dispatch (lg : Logger) (level : Level) (message : String)
    (time : Nat) (stack : List Frame)
    (hg : lg.core.goroutines = (lg.core.entries.length : Int)) :
    (lg.core.SyncMode = true →
      (fatalSubmit lg level message time stack).1.Targets =
        lg.core.Targets.map fun t =>
          { t with processed :=
              t.processed
              ++ [some (fatalSubmit lg level message time stack).2,
                  some (fatalSubmit lg level message time stack).2]
              ++ lg.core.entries })
    ∧ (lg.core.SyncMode = false →
      (fatalSubmit lg level message time stack).1.Targets =
        lg.core.Targets.map fun t =>
          { t with processed :=
              t.processed
              ++ [some (fatalSubmit lg level message time stack).2]
              ++ lg.core.entries
              ++ [some (fatalSubmit lg level message time stack).2] }) := by
  constructor
  · intro hs
    rw [fatalSubmit_sync lg level message time stack hg hs]
    rfl
  · intro hs
    rw [fatalSubmit_async lg level message time stack hg hs]
    rfl

/-- Witness for C4 on the open async sample engine. -/
theorem c4_witness :
    sampleLogger.core.goroutines = (sampleLogger.core.entries.length : Int)
    ∧ sampleLogger.core.SyncMode = false
    ∧ (fatalSubmit sampleLogger LevelFatal "boom" 0 sampleStack).1.Targets =
        sampleLogger.core.Targets.map fun t =>
          { t with processed :=
              t.processed
              ++ [some (fatalSubmit sampleLogger LevelFatal "boom" 0 sampleStack).2]
              ++ sampleLogger.core.entries
              ++ [some (fatalSubmit sampleLogger LevelFatal "boom" 0 sampleStack).2] } :=
  ⟨by decide, rfl,
    (c4_fatal_double_dispatch sampleLogger LevelFatal "boom" 0 sampleStack (by decide)).2 rfl⟩

/-- C1 (confirmed): a Fatal-level `Log` call on an open engine (whose
`MaxLevel` admits Fatal) follows the drain-then-act protocol: the busy-wait
runs the dispatcher until the pending count reaches zero, at which point
every entry that was queued before the Fatal call is in every active
target's processed trace; only then does the configured fatal action run —
`ActionNothing` returns normally, `ActionPanic` panics with "Fatal error.",
and `ActionExit` synchronously processes one final Warn-level "Forced to
exit." entry against every target and exits with the non-zero status -1.
Stated under the pending-count invariant `goroutines = queue length`. -/
theorem c1_fatal_drain_then_act (lg : Logger) (message : String) (time : Nat)
    (stack : List Frame)
    (hopen : lg.core.openFlag = true) (hmax : 0 ≤ lg.core.MaxLevel)
    (hg : lg.core.goroutines = (lg.core.entries.length : Int)) :
    Log lg LevelFatal message time stack =
      fatalAct lg (fatalSubmit lg LevelFatal message time stack).1 time
    ∧ (fatalSubmit lg LevelFatal message time stack).1.goroutines = 0
    ∧ (∀ oe ∈ lg.core.entries,
        ∀ tg ∈ (fatalSubmit lg LevelFatal message time stack).1.Targets, oe ∈ tg.processed)
    ∧ (lg.core.fatalAction = Action.nothing →
        (Log lg LevelFatal message time stack).2 = Outcome.normal)
    ∧ (lg.core.fatalAction = Action.panic →
        (Log lg LevelFatal message time stack).2 = Outcome.panicked "Fatal error.")
    ∧ (lg.core.fatalAction = Action.exit →
        (Log lg LevelFatal message time stack).2 = Outcome.exited (-1)
        ∧ ∀ tg ∈ (Log lg LevelFatal message time stack).1.Targets,
            ∃ e, some e ∈ tg.processed ∧ e.level = LevelWarn
              ∧ e.message = "Forced to exit.") := by
  have hlog := Log_fatal lg message time stack hopen hmax
  have hzero : (fatalSubmit lg LevelFatal message time stack).1.goroutines = 0 := by
    by_cases hs : lg.core.SyncMode = true
    · rw [fatalSubmit_sync lg LevelFatal message time stack hg hs]
    · rw [fatalSubmit_async lg LevelFatal message time stack hg (Bool.eq_false_iff.mpr hs)]
  have hfaD : (fatalSubmit lg LevelFatal message time stack).1.fatalAction
      = lg.core.fatalAction := by
    by_cases hs : lg.core.SyncMode = true
    · rw [fatalSubmit_sync lg LevelFatal message time stack hg hs]
    · rw [fatalSubmit_async lg LevelFatal message time stack hg (Bool.eq_false_iff.mpr hs)]
  have hmem : ∀ oe ∈ lg.core.entries,
      ∀ tg ∈ (fatalSubmit lg LevelFatal message time stack).1.Targets, oe ∈ tg.processed := by
    intro oe hoe tg htg
    by_cases hs : lg.core.SyncMode = true
    · rw [fatalSubmit_sync lg LevelFatal message time stack hg hs] at htg
      simp only [List.mem_map] at htg
      obtain ⟨tg0, _, rfl⟩ := htg
      simp [List.mem_append, hoe]
    · rw [fatalSubmit_async lg LevelFatal message time stack hg
        (Bool.eq_false_iff.mpr hs)] at htg
      simp only [List.mem_map] at htg
      obtain ⟨tg0, _, rfl⟩ := htg
      simp [List.mem_append, hoe]
  refine ⟨hlog, hzero, hmem, ?_, ?_, ?_⟩
  · intro hfa
    rw [hlog]
    unfold fatalAct
    rw [if_pos (le_of_eq hzero), hfaD, hfa]
  · intro hfa
    rw [hlog]
    unfold fatalAct
    rw [if_pos (le_of_eq hzero), hfaD, hfa]
  · intro hfa
    rw [hlog]
    unfold fatalAct
    rw [if_pos (le_of_eq hzero), hfaD, hfa]
    refine ⟨rfl, ?_⟩
    intro tg htg
    simp only [syncProcess_some, List.mem_map] at htg
    obtain ⟨tg0, _, rfl⟩ := htg
    refine ⟨{ level := LevelWarn, category := lg.Category, message := "Forced to exit.",
              time := time, callStack := "",
              formattedMessage := lg.Formatter
                { level := LevelWarn, category := lg.Category, message := "Forced to exit.",
                  time := time, callStack := "", formattedMessage := "" } },
           ?_, rfl, rfl⟩
    simp

/-- Witness for C1 on the open async sample engine with one queued entry and
`ActionNothing`. -/
theorem c1_witness :
    (sampleLogger.core.openFlag = true
      ∧ (0 : Int) ≤ sampleLogger.core.MaxLevel
      ∧ sampleLogger.core.goroutines = (sampleLogger.core.entries.length : Int)
      ∧ sampleLogger.core.fatalAction = Action.nothing)
    ∧ (fatalSubmit sampleLogger LevelFatal "bye" 0 sampleStack).1.goroutines = 0
    ∧ (∀ oe ∈ sampleLogger.core.entries,
        ∀ tg ∈ (fatalSubmit sampleLogger LevelFatal "bye" 0 sampleStack).1.Targets,
          oe ∈ tg.processed)
    ∧ (Log sampleLogger LevelFatal "bye" 0 sampleStack).2 = Outcome.normal :=
  ⟨⟨rfl, by decide, by decide, rfl⟩,
    (c1_fatal_drain_then_act sampleLogger "bye" 0 sampleStack rfl (by decide) (by decide)).2.1,
    (c1_fatal_drain_then_act sampleLogger "bye" 0 sampleStack rfl (by decide) (by decide)).2.2.1,
    (c1_fatal_drain_then_act sampleLogger "bye" 0 sampleStack rfl (by decide)
      (by decide)).2.2.2.1 rfl⟩

end GoLog
